import Mathlib

/-!
Shallow embedding of the voyager-text-browser core (src/app.rs, src/types.rs,
src/main.rs).  Network fetch, HTML parsing into rich lines, URL joining and
raster decoding/resizing are external collaborators of the engine (spec §1,
§6): they enter the model as oracle parameters (total functions / Option
valued functions).  Everything the engine itself computes — the conversion
loop of fetch_page, the highlight overlay of render_content, the history
stack operations, the luminance-to-glyph loop of preview_image — is
translated statement by statement from the Rust source.
-/

namespace Voyager

/-- Terminal colors used by the program (ratatui Color, restricted to the
variants the source mentions). -/
inductive Color where
  | blue
  | magenta
  | darkGray
  | yellow
  | black
  | cyan
  | green
deriving DecidableEq, Repr

/-- ratatui Style, restricted to the fields the source touches: foreground,
background, and the BOLD / UNDERLINED / ITALIC modifier bits. -/
structure Style where
  fg : Option Color := none
  bg : Option Color := none
  bold : Bool := false
  underlined : Bool := false
  italic : Bool := false
deriving DecidableEq, Repr

/-- `Style::default()`. -/
def Style.default : Style := {}

/-- ratatui Span: a text run with one style. -/
structure Span where
  content : String
  style : Style
deriving DecidableEq, Repr

/-- ratatui Line, identified with its list of spans. -/
abbrev Lyne := List Span

/-- src/types.rs `LinkType`. -/
inductive LinkType where
  | web
  | image
deriving DecidableEq, Repr

/-- src/types.rs `LinkData`. -/
structure LinkData where
  url : String
  link_type : LinkType
deriving DecidableEq, Repr

/-- src/types.rs `Mode`. -/
inductive Mode where
  | normal
  | command
deriving DecidableEq, Repr

/-- src/types.rs `LINK_COLOR_WEB`. -/
def LINK_COLOR_WEB : Color := Color.blue

/-- src/types.rs `LINK_COLOR_IMG`. -/
def LINK_COLOR_IMG : Color := Color.magenta

/-- The rich markup tags html2text attaches to a text run (app.rs matches on
Link, Image and Strong; every other variant falls into the wildcard arm,
modelled by `other`). -/
inductive Annot where
  | link (target : String)
  | image (src : String)
  | strong
  | other
deriving DecidableEq, Repr

/-- A tagged string of a rich line: the run text `s` and its tag list, as
consumed by the loop in `App::fetch_page` (app.rs lines 67-99). -/
structure TaggedString where
  s : String
  tag : List Annot
deriving DecidableEq, Repr

/-- One iteration of the annotation loop in fetch_page (app.rs lines 71-84):
a Link or Image tag overwrites `current_link` with the resolved address
(`resolve` stands for `base_url.join(..).map(..).unwrap_or(literal)`),
Strong adds BOLD to the accumulated style, everything else is ignored. -/
def applyAnnot (resolve : String → String)
    (acc : Style × Option (String × LinkType)) (a : Annot) :
    Style × Option (String × LinkType) :=
  match a with
  | Annot.link target => (acc.1, some (resolve target, LinkType.web))
  | Annot.image src => (acc.1, some (resolve src, LinkType.image))
  | Annot.strong => ({ acc.1 with bold := true }, acc.2)
  | Annot.other => acc

/-- The `[{link_counter}]` label span (app.rs lines 87-88). -/
def labelSpan (cnt : Nat) : Span :=
  { content := "[" ++ toString cnt ++ "]",
    style := { Style.default with fg := some Color.darkGray } }

/-- The style given to a link-tagged run (app.rs lines 90-93). -/
def linkStyle : LinkType → Style
  | LinkType.web =>
      { Style.default with fg := some LINK_COLOR_WEB, underlined := true }
  | LinkType.image =>
      { Style.default with fg := some LINK_COLOR_IMG, italic := true }

/-- The body of fetch_page's per-tagged-string loop (app.rs lines 67-99):
returns the spans pushed for this tagged string and the LinkData pushed (if
any).  `cnt` is the current value of `link_counter`, used only for the label
text. -/
def convertTagged (resolve : String → String) (cnt : Nat) (ts : TaggedString) :
    List Span × Option LinkData :=
  match ts.tag.foldl (applyAnnot resolve) (Style.default, none) with
  | (_, some (url, ltype)) =>
      ([labelSpan cnt, { content := ts.s, style := linkStyle ltype }],
       some { url := url, link_type := ltype })
  | (style, none) => ([{ content := ts.s, style := style }], none)

/-- fetch_page's inner loop over the tagged strings of one rich line,
threading `link_counter` (incremented exactly when a LinkData is pushed,
app.rs line 96). Returns (spans, links, final counter). -/
def convertLineAux (resolve : String → String) :
    Nat → List TaggedString → List Span × List LinkData × Nat
  | cnt, [] => ([], [], cnt)
  | cnt, ts :: rest =>
    let r0 := convertTagged resolve cnt ts
    let cnt2 := if r0.2.isSome then cnt + 1 else cnt
    let r := convertLineAux resolve cnt2 rest
    (r0.1 ++ r.1, r0.2.toList ++ r.2.1, r.2.2)

/-- fetch_page's outer loop over the rich lines (app.rs lines 65-102),
threading `link_counter` across lines. -/
def convertLinesAux (resolve : String → String) :
    Nat → List (List TaggedString) → List Lyne × List LinkData × Nat
  | cnt, [] => ([], [], cnt)
  | cnt, l :: ls =>
    let r1 := convertLineAux resolve cnt l
    let r2 := convertLinesAux resolve r1.2.2 ls
    (r1.1 :: r2.1, r1.2.1 ++ r2.2.1, r2.2.2)

/-- The markup-to-lines conversion performed by fetch_page on the rich lines
returned by html2text: produces the new content lines and the new link
list. -/
def convert (resolve : String → String) (doc : List (List TaggedString)) :
    List Lyne × List LinkData :=
  ((convertLinesAux resolve 0 doc).1, (convertLinesAux resolve 0 doc).2.1)

/-- The color test of render_content (app.rs line 146): a span is a
link-tagged run iff its foreground is one of the two link colors. -/
def isLinkSpan (sp : Span) : Bool :=
  sp.style.fg = some LINK_COLOR_WEB || sp.style.fg = some LINK_COLOR_IMG

/-- The restyling applied to the selected link span (app.rs line 148):
`s.style.bg(Yellow).fg(Black).add_modifier(BOLD)` — background and
foreground replaced, BOLD added, other modifier bits kept. -/
def highlight (st : Style) : Style :=
  { st with bg := some Color.yellow, fg := some Color.black, bold := true }

/-- A span with the highlight restyling applied. -/
def highlightSpan (sp : Span) : Span :=
  { sp with style := highlight sp.style }

/-- render_content's inner span loop (app.rs lines 144-153), threading the
`current_idx` counter: a link-colored span is highlighted when the counter
equals the selected index, and the counter is incremented after every
link-colored span. -/
def renderSpansAux (sel : Nat) : Nat → List Span → List Span × Nat
  | cnt, [] => ([], cnt)
  | cnt, sp :: rest =>
    let step : Span × Nat :=
      if isLinkSpan sp then
        (if cnt = sel then highlightSpan sp else sp, cnt + 1)
      else (sp, cnt)
    let r := renderSpansAux sel step.2 rest
    (step.1 :: r.1, r.2)

/-- render_content's outer loop over the content lines (app.rs lines
139-157), threading `current_idx` across lines. -/
def renderLinesAux (sel : Nat) : Nat → List Lyne → List Lyne × Nat
  | cnt, [] => ([], cnt)
  | cnt, l :: ls =>
    let r1 := renderSpansAux sel cnt l
    let r2 := renderLinesAux sel r1.2 ls
    (r1.1 :: r2.1, r2.2)

/-- `App::render_content` as a function of the content lines and the
selected link index (the two fields of `self` it reads). -/
def render_content (sel : Nat) (lines : List Lyne) : List Lyne :=
  (renderLinesAux sel 0 lines).1

/-- Number of link-tagged runs in a span list. -/
def countLinkSpans : List Span → Nat
  | [] => 0
  | sp :: rest => (if isLinkSpan sp then 1 else 0) + countLinkSpans rest

/-- Number of link-tagged runs across a list of content lines. -/
def countLinkRuns : List Lyne → Nat
  | [] => 0
  | l :: ls => countLinkSpans l + countLinkRuns ls

/-- Concatenation of the spans of all lines, in document order. -/
def flattenSpans : List Lyne → List Span
  | [] => []
  | l :: ls => l ++ flattenSpans ls

/-- A fetched-and-converted page: the pair fetch_page installs on success.
The network fetch, the HTML parse and the conversion are collapsed into one
oracle `String → Option Page` (a deterministic fetch collaborator, spec §6);
for src/app.rs the `some` case carries `convert resolve richLines`. -/
structure Page where
  lines : List Lyne
  links : List LinkData
deriving DecidableEq

/-- The `App` struct of src/app.rs (the one of src/main.rs is the same minus
`image_preview`).  Rust `Vec` push/pop at the back are modelled with the
list head as the stack top. -/
structure App where
  current_url : String
  content_lines : List Lyne
  links : List LinkData
  selected_link_idx : Nat
  scroll : Nat
  status : String
  mode : Mode
  command_buffer : String
  history : List String
  future : List String
  image_preview : Option (List String)
deriving DecidableEq

/-- `App::new` (app.rs lines 23-37). -/
def App.new (start_url : String) : App :=
  { current_url := start_url
    content_lines := []
    links := []
    selected_link_idx := 0
    scroll := 0
    status := "Voyager Ready"
    mode := Mode.normal
    command_buffer := String.mk []
    history := []
    future := []
    image_preview := none }

/-- `App::fetch_page` (app.rs lines 51-110) against a fetch oracle.  The
status is set first; a failure anywhere in the fetch/parse/convert pipeline
(any of the `?` operators on lines 53-56) returns early with `false` and
leaves every other field untouched; on success content, links, selection,
scroll and status are replaced. -/
def App.fetch_page (fetch : String → Option Page) (s : App) : App × Bool :=
  let s1 := { s with status := "Fetching " ++ s.current_url ++ "..." }
  match fetch s1.current_url with
  | none => (s1, false)
  | some pg =>
      ({ s1 with
          content_lines := pg.lines
          links := pg.links
          selected_link_idx := 0
          scroll := 0
          status := "Loaded: " ++ s1.current_url }, true)

/-- Rust `str::starts_with` on the character sequence (Rust tests a byte
prefix, which for valid UTF-8 is the same as a character prefix). -/
def starts_with (s p : String) : Bool := p.data.isPrefixOf s.data

/-- Scheme defaulting at the top of `App::navigate` (app.rs lines 40-42). -/
def normalize (url : String) : String :=
  if starts_with url "http://" || starts_with url "https://" then url
  else "https://" ++ url

/-- `App::navigate` (app.rs lines 39-49): default the scheme, push the
current address onto history unless it is empty, clear future, set the
current address, then fetch. -/
def App.navigate (fetch : String → Option Page) (s : App) (url : String) :
    App × Bool :=
  let nurl := normalize url
  let s1 := if s.current_url = "" then s
            else { s with history := s.current_url :: s.history }
  App.fetch_page fetch { s1 with future := [], current_url := nurl }

/-- `App::go_back` (main.rs lines 75-84): pop history; if non-empty, push
the current address onto future, make the popped address current and fetch;
otherwise only a status message. -/
def App.go_back (fetch : String → Option Page) (s : App) : App × Bool :=
  match s.history with
  | [] => ({ s with status := "No back history" }, true)
  | prev :: rest =>
      App.fetch_page fetch
        { s with history := rest
                 future := s.current_url :: s.future
                 current_url := prev }

/-- `App::go_forward` (main.rs lines 86-95): symmetric to go_back with the
two stacks swapped. -/
def App.go_forward (fetch : String → Option Page) (s : App) : App × Bool :=
  match s.future with
  | [] => ({ s with status := "No forward history" }, true)
  | next :: rest =>
      App.fetch_page fetch
        { s with future := rest
                 history := s.current_url :: s.history
                 current_url := next }

/-- Normal-mode key `l` (main.rs lines 241-245): advance the selection with
wrap-around; no-op on an empty link list. -/
def next_link (len idx : Nat) : Nat :=
  if len ≠ 0 then (idx + 1) % len else idx

/-- Normal-mode key `h` (main.rs lines 246-254): retreat the selection with
wrap-around; no-op on an empty link list. -/
def prev_link (len idx : Nat) : Nat :=
  if len ≠ 0 then (if idx = 0 then len - 1 else idx - 1) else idx

/-- The glyph ramp of preview_image (app.rs line 123): the 14 characters of
the charset string, sparsest to densest. -/
def charset : List Char :=
  [' ', '`', '.', '!', '|', ':', '-', '=', 'm', '+', '*', '#', '%', '@']

/-- The quantization index of app.rs line 129:
`(p as usize * (charset.len() - 1)) / 255`. -/
def rampIdx (p : Nat) : Nat := p * (charset.length - 1) / 255

/-- One pixel's glyph (app.rs line 130).  The source unwraps
`charset.chars().nth(idx)`; the default branch of `getD` is unreachable
(see the ramp-index bound theorem below). -/
def aaChar (p : Fin 256) : Char := (charset.get? (rampIdx p.val)).getD ' '

/-- One output row of the loop in app.rs lines 126-131: for x in 0..w push
the glyph of the resized grayscale pixel at (x, y). -/
def aaRow (g : Nat → Nat → Fin 256) (w y : Nat) : String :=
  String.mk ((List.range w).map (fun x => aaChar (g x y)))

/-- The full text-art grid of app.rs lines 124-133: for y in 0..h produce a
row of w glyphs. -/
def aaGrid (g : Nat → Nat → Fin 256) (w h : Nat) : List String :=
  (List.range h).map (fun y => aaRow g w y)

/-- The output height of app.rs line 119, `(80.0 * (h / w) * 0.5) as u32`,
modelled in exact arithmetic: truncation of 40 * h / w. -/
def newHeight (w h : Nat) : Nat := 40 * h / w

/-- Modelled from the spec: §4.2 specifies
`new_height = round(target_width * (original_height/original_width) * 0.5)`
with target_width = 80 — half-up rounding of the exact rational 40*h/w,
i.e. floor((80*h + w) / (2*w)).  Kept separate from `newHeight` (the
source's formula) for comparison. -/
def roundHeight (w h : Nat) : Nat := (80 * h + w) / (2 * w)

/-- A decoded raster image (the `some` result of the image crate's
load_from_memory): its dimensions, plus the external nearest-neighbor
resize + to_luma8 collaborator, `resize tw th x y` being the 8-bit
luminance of the tw×th resized image at (x, y). -/
structure RawImage where
  w : Nat
  h : Nat
  resize : Nat → Nat → Nat → Nat → Fin 256

/-- `App::preview_image` (app.rs lines 112-137) against a byte-fetch oracle
and a decode oracle.  The status is set first; a fetch or decode failure
(the `?` operators on lines 114-115) returns early with `false`; on success
the text-art grid is stored in the image_preview slot. -/
def App.preview_image (fb : String → Option (List Nat))
    (dec : List Nat → Option RawImage) (s : App) (url : String) :
    App × Bool :=
  let s1 := { s with status := "Processing Image AA: " ++ url ++ "..." }
  match fb url with
  | none => (s1, false)
  | some bytes =>
    match dec bytes with
    | none => (s1, false)
    | some img =>
      let new_w := 80
      let new_h := newHeight img.w img.h
      let g := img.resize new_w new_h
      ({ s1 with
          image_preview := some (aaGrid g new_w new_h)
          status := "Image AA Loaded. Press ESC to close." }, true)

/-! ### Counting lemmas for the converter and the overlay -/

lemma foldl_applyAnnot_fg (resolve : String → String) (anns : List Annot)
    (p : Style × Option (String × LinkType)) :
    ((anns.foldl (applyAnnot resolve) p).1).fg = (p.1).fg := by
  induction anns generalizing p with
  | nil => rfl
  | cons a rest ih =>
      rw [List.foldl_cons, ih]
      cases a <;> rfl

lemma convertTagged_count (resolve : String → String) (cnt : Nat)
    (ts : TaggedString) :
    countLinkSpans (convertTagged resolve cnt ts).1
      = (if (convertTagged resolve cnt ts).2.isSome then 1 else 0) := by
  rcases hfold : ts.tag.foldl (applyAnnot resolve) (Style.default, none) with
    ⟨st, cl⟩
  have hfg : st.fg = none := by
    have h1 := foldl_applyAnnot_fg resolve ts.tag (Style.default, none)
    rw [hfold] at h1
    exact h1
  simp only [convertTagged, hfold]
  cases cl with
  | none =>
      simp [countLinkSpans, isLinkSpan, hfg]
  | some v =>
      obtain ⟨url, ltype⟩ := v
      cases ltype <;>
        simp [countLinkSpans, isLinkSpan, labelSpan, linkStyle,
          LINK_COLOR_WEB, LINK_COLOR_IMG, Style.default]

lemma countLinkSpans_append (xs ys : List Span) :
    countLinkSpans (xs ++ ys) = countLinkSpans xs + countLinkSpans ys := by
  induction xs with
  | nil => simp [countLinkSpans]
  | cons sp rest ih =>
      show (if isLinkSpan sp then 1 else 0) + countLinkSpans (rest ++ ys)
          = (if isLinkSpan sp then 1 else 0) + countLinkSpans rest
            + countLinkSpans ys
      rw [ih, Nat.add_assoc]

lemma convertLineAux_count (resolve : String → String)
    (tss : List TaggedString) : ∀ cnt : Nat,
    countLinkSpans (convertLineAux resolve cnt tss).1
      = ((convertLineAux resolve cnt tss).2.1).length := by
  induction tss with
  | nil => intro cnt; rfl
  | cons ts rest ih =>
      intro cnt
      simp only [convertLineAux]
      rw [countLinkSpans_append, convertTagged_count, ih, List.length_append]
      cases h : (convertTagged resolve cnt ts).2 <;> simp [h]

lemma convertLinesAux_count (resolve : String → String)
    (doc : List (List TaggedString)) : ∀ cnt : Nat,
    countLinkRuns (convertLinesAux resolve cnt doc).1
      = ((convertLinesAux resolve cnt doc).2.1).length := by
  induction doc with
  | nil => intro cnt; rfl
  | cons l ls ih =>
      intro cnt
      simp only [convertLinesAux, countLinkRuns]
      rw [List.length_append, convertLineAux_count, ih]

lemma renderSpansAux_snd (sel : Nat) (ss : List Span) : ∀ cnt : Nat,
    (renderSpansAux sel cnt ss).2 = cnt + countLinkSpans ss := by
  induction ss with
  | nil => intro cnt; rfl
  | cons sp rest ih =>
      intro cnt
      simp only [renderSpansAux, countLinkSpans]
      by_cases h : isLinkSpan sp <;> (simp [h, ih]; try omega)

lemma renderLinesAux_snd (sel : Nat) (ls : List Lyne) : ∀ cnt : Nat,
    (renderLinesAux sel cnt ls).2 = cnt + countLinkRuns ls := by
  induction ls with
  | nil => intro cnt; rfl
  | cons l ls2 ih =>
      intro cnt
      simp only [renderLinesAux, countLinkRuns]
      rw [ih, renderSpansAux_snd]
      omega

/-- C1: for every converted document the length of the produced links list
equals the number of link-tagged runs across all produced content lines,
and the overlay counter of render_content, after a full pass over the
content lines, ends exactly at links.len(). -/
theorem links_match_tagged_runs (resolve : String → String)
    (doc : List (List TaggedString)) (sel : Nat) :
    countLinkRuns (convert resolve doc).1 = (convert resolve doc).2.length
  ∧ (renderLinesAux sel 0 (convert resolve doc).1).2
      = (convert resolve doc).2.length := by
  have h := convertLinesAux_count resolve doc 0
  refine ⟨h, ?_⟩
  rw [renderLinesAux_snd]
  simpa [convert] using h

/-! ### Positional lemmas for the highlight overlay -/

lemma renderSpansAux_length (sel : Nat) (ss : List Span) : ∀ cnt : Nat,
    ((renderSpansAux sel cnt ss).1).length = ss.length := by
  induction ss with
  | nil => intro cnt; rfl
  | cons sp rest ih =>
      intro cnt
      simp only [renderSpansAux, List.length_cons]
      rw [ih]

lemma countLinkSpans_take_le (ss : List Span) : ∀ a : Nat,
    countLinkSpans (ss.take a) ≤ countLinkSpans ss := by
  induction ss with
  | nil => intro a; simp
  | cons sp rest ih =>
      intro a
      cases a with
      | zero => simp [countLinkSpans]
      | succ a =>
          simp only [List.take_succ_cons, countLinkSpans]
          have := ih a
          omega

lemma countLinkSpans_take_mono (ss : List Span) (a b : Nat) (h : a ≤ b) :
    countLinkSpans (ss.take a) ≤ countLinkSpans (ss.take b) := by
  have heq : ss.take a = (ss.take b).take a := by
    rw [List.take_take, Nat.min_eq_left h]
  rw [heq]
  exact countLinkSpans_take_le _ _

lemma countLinkSpans_take_succ (ss : List Span) : ∀ (j : Nat) (sp : Span),
    ss[j]? = some sp →
    countLinkSpans (ss.take (j + 1))
      = countLinkSpans (ss.take j) + (if isLinkSpan sp then 1 else 0) := by
  induction ss with
  | nil => intro j sp h; simp at h
  | cons x rest ih =>
      intro j sp h
      cases j with
      | zero =>
          simp only [List.getElem?_cons_zero, Option.some.injEq] at h
          subst h
          simp [countLinkSpans]
          try omega
      | succ j =>
          have hr : rest[j]? = some sp := by simpa using h
          have := ih j sp hr
          simp only [List.take_succ_cons, countLinkSpans, this]
          omega

lemma renderSpansAux_get (sel : Nat) (ss : List Span) : ∀ (cnt j : Nat),
    ((renderSpansAux sel cnt ss).1)[j]?
      = (ss[j]?).map (fun sp =>
          if isLinkSpan sp ∧ cnt + countLinkSpans (ss.take j) = sel
          then highlightSpan sp else sp) := by
  induction ss with
  | nil => intro cnt j; simp [renderSpansAux]
  | cons sp rest ih =>
      intro cnt j
      cases j with
      | zero =>
          by_cases h : isLinkSpan sp
          · by_cases h2 : cnt = sel <;>
              simp [renderSpansAux, h, h2, countLinkSpans]
          · simp [renderSpansAux, h, countLinkSpans]
      | succ j =>
          have hstep : ((renderSpansAux sel cnt (sp :: rest)).1)[j + 1]?
              = ((renderSpansAux sel (if isLinkSpan sp then cnt + 1 else cnt)
                    rest).1)[j]? := by
            by_cases h : isLinkSpan sp <;> simp [renderSpansAux, h]
          have harith :
              (if isLinkSpan sp then cnt + 1 else cnt)
                  + countLinkSpans (rest.take j)
                = cnt + countLinkSpans ((sp :: rest).take (j + 1)) := by
            simp only [List.take_succ_cons, countLinkSpans]
            by_cases h : isLinkSpan sp <;> simp [h] <;> try omega
          rw [hstep, ih, List.getElem?_cons_succ]
          simp only [harith]

lemma nth_link_exists (ss : List Span) : ∀ i : Nat, i < countLinkSpans ss →
    ∃ j sp, ss[j]? = some sp ∧ isLinkSpan sp = true
      ∧ countLinkSpans (ss.take j) = i := by
  induction ss with
  | nil => intro i h; simp [countLinkSpans] at h
  | cons sp rest ih =>
      intro i h
      by_cases hl : isLinkSpan sp
      · cases i with
        | zero => exact ⟨0, sp, by simp, hl, by simp [countLinkSpans]⟩
        | succ n =>
            have hn : n < countLinkSpans rest := by
              simp only [countLinkSpans, hl, if_true] at h
              omega
            obtain ⟨j, sp2, hg, hl2, hc⟩ := ih n hn
            refine ⟨j + 1, sp2, by simpa using hg, hl2, ?_⟩
            simp only [List.take_succ_cons, countLinkSpans, hl, if_true, hc]
            omega
      · have hn : i < countLinkSpans rest := by
          simp only [countLinkSpans] at h
          simp [hl] at h
          exact h
        obtain ⟨j, sp2, hg, hl2, hc⟩ := ih i hn
        refine ⟨j + 1, sp2, by simpa using hg, hl2, ?_⟩
        simp only [List.take_succ_cons, countLinkSpans, hc]
        simp [hl]

lemma nth_link_lt_absurd (ss : List Span) (i j k : Nat) (sp : Span)
    (hjk : j < k) (hj : ss[j]? = some sp) (hlj : isLinkSpan sp = true)
    (hcj : countLinkSpans (ss.take j) = i)
    (hck : countLinkSpans (ss.take k) = i) : False := by
  have h1 := countLinkSpans_take_succ ss j sp hj
  have h2 := countLinkSpans_take_mono ss (j + 1) k hjk
  rw [h1, hcj, hlj] at h2
  simp at h2
  omega

lemma nth_link_unique (ss : List Span) (i j k : Nat) (sp sp2 : Span)
    (hj : ss[j]? = some sp) (hlj : isLinkSpan sp = true)
    (hcj : countLinkSpans (ss.take j) = i)
    (hk : ss[k]? = some sp2) (hlk : isLinkSpan sp2 = true)
    (hck : countLinkSpans (ss.take k) = i) : j = k := by
  rcases Nat.lt_trichotomy j k with h | h | h
  · exact absurd (nth_link_lt_absurd ss i j k sp h hj hlj hcj hck) id
  · exact h
  · exact absurd (nth_link_lt_absurd ss i k j sp2 h hk hlk hck hcj) id

lemma renderSpansAux_append (sel : Nat) (xs ys : List Span) : ∀ cnt : Nat,
    renderSpansAux sel cnt (xs ++ ys)
      = ((renderSpansAux sel cnt xs).1
           ++ (renderSpansAux sel (renderSpansAux sel cnt xs).2 ys).1,
         (renderSpansAux sel (renderSpansAux sel cnt xs).2 ys).2) := by
  induction xs with
  | nil => intro cnt; simp [renderSpansAux]
  | cons sp rest ih =>
      intro cnt
      simp only [List.cons_append, renderSpansAux, List.append_eq]
      rw [ih]

lemma renderLinesAux_flatten (sel : Nat) (ls : List Lyne) : ∀ cnt : Nat,
    flattenSpans (renderLinesAux sel cnt ls).1
      = (renderSpansAux sel cnt (flattenSpans ls)).1 := by
  induction ls with
  | nil => intro cnt; rfl
  | cons l ls2 ih =>
      intro cnt
      simp only [renderLinesAux, flattenSpans]
      rw [renderSpansAux_append, ih]

lemma countLinkSpans_flatten (ls : List Lyne) :
    countLinkSpans (flattenSpans ls) = countLinkRuns ls := by
  induction ls with
  | nil => rfl
  | cons l ls2 ih =>
      simp only [flattenSpans, countLinkRuns, countLinkSpans_append, ih]

lemma highlightSpan_ne (sp : Span) (h : isLinkSpan sp = true) :
    highlightSpan sp ≠ sp := by
  intro heq
  have hfg := congrArg (fun x => x.style.fg) heq
  simp only [highlightSpan, highlight] at hfg
  simp only [isLinkSpan, Bool.or_eq_true, decide_eq_true_eq] at h
  rcases h with h | h <;> rw [h] at hfg <;>
    simp [LINK_COLOR_WEB, LINK_COLOR_IMG] at hfg

/-- C2: for every converted document and every index i below links.len(),
render_content with selected_link_idx = i changes exactly one run, namely
the i-th link-tagged run in document order, to the highlighted style, and
every other run (in particular every non-link-tagged run) passes through
unchanged. -/
theorem highlight_selected (resolve : String → String)
    (doc : List (List TaggedString)) (i : Nat)
    (hi : i < (convert resolve doc).2.length) :
    let lines := (convert resolve doc).1
    let ss := flattenSpans lines
    let rs := flattenSpans (render_content i lines)
    rs.length = ss.length ∧
    ∃ j sp, ss[j]? = some sp ∧ isLinkSpan sp = true
      ∧ countLinkSpans (ss.take j) = i
      ∧ rs[j]? = some (highlightSpan sp)
      ∧ highlightSpan sp ≠ sp
      ∧ ∀ k, k ≠ j → rs[k]? = ss[k]? := by
  intro lines ss rs
  have hcount : countLinkSpans ss = (convert resolve doc).2.length := by
    rw [countLinkSpans_flatten]
    exact convertLinesAux_count resolve doc 0
  have hi2 : i < countLinkSpans ss := by rw [hcount]; exact hi
  have hrs : rs = (renderSpansAux i 0 ss).1 := renderLinesAux_flatten i lines 0
  have hlen : rs.length = ss.length := by
    rw [hrs]
    exact renderSpansAux_length i ss 0
  obtain ⟨j, sp, hg, hl, hc⟩ := nth_link_exists ss i hi2
  refine ⟨hlen, j, sp, hg, hl, hc, ?_, highlightSpan_ne sp hl, ?_⟩
  · rw [hrs, renderSpansAux_get i ss 0 j, hg]
    simp [hl, hc]
  · intro k hk
    rw [hrs, renderSpansAux_get i ss 0 k]
    cases hgk : ss[k]? with
    | none => simp [hgk]
    | some sp2 =>
        have hcond : ¬(isLinkSpan sp2 = true
            ∧ countLinkSpans (ss.take k) = i) := by
          rintro ⟨hl2, hc2⟩
          exact hk (nth_link_unique ss i k j sp2 sp hgk hl2 hc2 hg hl hc)
        simp [hcond]

/-! ### Navigation: failure atomicity, history/future round trips -/

lemma normalize_ne_nil (url : String) : normalize url ≠ "" := by
  unfold normalize
  split
  · next hc =>
      intro h
      rw [h] at hc
      exact absurd hc (by decide)
  · intro h
    have hlen := congrArg String.length h
    rw [String.length_append] at hlen
    have h8 : ("https://" : String).length = 8 := rfl
    have h0 : ("" : String).length = 0 := rfl
    rw [h8, h0] at hlen
    omega

lemma navigate_failure_eq (fetch : String → Option Page) (s : App)
    (url : String) (h : fetch (normalize url) = none) :
    App.navigate fetch s url
      = ({ s with
            history := if s.current_url = "" then s.history
                       else s.current_url :: s.history
            future := []
            current_url := normalize url
            status := "Fetching " ++ normalize url ++ "..." }, false) := by
  by_cases hcur : s.current_url = "" <;>
    simp [App.navigate, App.fetch_page, hcur, h]

lemma navigate_success_eq (fetch : String → Option Page) (s : App)
    (url : String) (pg : Page) (h : fetch (normalize url) = some pg) :
    App.navigate fetch s url
      = ({ s with
            history := if s.current_url = "" then s.history
                       else s.current_url :: s.history
            future := []
            current_url := normalize url
            content_lines := pg.lines
            links := pg.links
            selected_link_idx := 0
            scroll := 0
            status := "Loaded: " ++ normalize url }, true) := by
  by_cases hcur : s.current_url = "" <;>
    simp [App.navigate, App.fetch_page, hcur, h]

lemma go_back_success_eq (fetch : String → Option Page) (s : App)
    (prev : String) (rest : List String) (pg : Page)
    (hh : s.history = prev :: rest) (h : fetch prev = some pg) :
    App.go_back fetch s
      = ({ s with
            history := rest
            future := s.current_url :: s.future
            current_url := prev
            content_lines := pg.lines
            links := pg.links
            selected_link_idx := 0
            scroll := 0
            status := "Loaded: " ++ prev }, true) := by
  simp [App.go_back, hh, App.fetch_page, h]

lemma go_forward_success_eq (fetch : String → Option Page) (s : App)
    (next : String) (rest : List String) (pg : Page)
    (hf : s.future = next :: rest) (h : fetch next = some pg) :
    App.go_forward fetch s
      = ({ s with
            future := rest
            history := s.current_url :: s.history
            current_url := next
            content_lines := pg.lines
            links := pg.links
            selected_link_idx := 0
            scroll := 0
            status := "Loaded: " ++ next }, true) := by
  simp [App.go_forward, hf, App.fetch_page, h]

/-- A Page and a fetch oracle for concrete test states. -/
def pageEmpty : Page := { lines := [], links := [] }

/-- A fetch oracle that always succeeds with the empty page. -/
def fetchOkEmpty : String → Option Page := fun _ => some pageEmpty

/-- C3 counterexample: a navigate with a failing fetch does not leave all
prior Session state untouched — the current address has already been
replaced and the old address has already been pushed onto history. -/
theorem navigate_failure_counterexample :
    (App.navigate (fun _ => none) (App.new "https://a") "https://b").2 = false
  ∧ (App.navigate (fun _ => none) (App.new "https://a") "https://b").1.current_url
      ≠ (App.new "https://a").current_url
  ∧ (App.navigate (fun _ => none) (App.new "https://a") "https://b").1.current_url
      = "https://b" := by
  decide

/-- C3 (amended): when the fetch/conversion of a navigate fails, the content
lines, links list, selection index, scroll offset and image preview are left
untouched, but the current address has already been set to the new
(normalized) address, the previous address has been pushed onto history,
the future stack has been cleared, and the status text reports the
attempted fetch. -/
theorem navigate_failure_frame (fetch : String → Option Page) (s : App)
    (url : String) (h : fetch (normalize url) = none) :
    (App.navigate fetch s url).2 = false
  ∧ (App.navigate fetch s url).1.content_lines = s.content_lines
  ∧ (App.navigate fetch s url).1.links = s.links
  ∧ (App.navigate fetch s url).1.selected_link_idx = s.selected_link_idx
  ∧ (App.navigate fetch s url).1.scroll = s.scroll
  ∧ (App.navigate fetch s url).1.image_preview = s.image_preview
  ∧ (App.navigate fetch s url).1.current_url = normalize url
  ∧ (App.navigate fetch s url).1.future = []
  ∧ (App.navigate fetch s url).1.history
      = (if s.current_url = "" then s.history
         else s.current_url :: s.history) := by
  rw [navigate_failure_eq fetch s url h]
  by_cases hcur : s.current_url = "" <;> simp [hcur]

theorem navigate_failure_frame_witness :
    ((fun _ : String => (none : Option Page)) (normalize "https://b") = none)
  ∧ ((App.navigate (fun _ => none) (App.new "https://a") "https://b").2 = false
  ∧ (App.navigate (fun _ => none) (App.new "https://a") "https://b").1.content_lines
      = (App.new "https://a").content_lines
  ∧ (App.navigate (fun _ => none) (App.new "https://a") "https://b").1.links
      = (App.new "https://a").links
  ∧ (App.navigate (fun _ => none) (App.new "https://a") "https://b").1.selected_link_idx
      = (App.new "https://a").selected_link_idx
  ∧ (App.navigate (fun _ => none) (App.new "https://a") "https://b").1.scroll
      = (App.new "https://a").scroll
  ∧ (App.navigate (fun _ => none) (App.new "https://a") "https://b").1.image_preview
      = (App.new "https://a").image_preview
  ∧ (App.navigate (fun _ => none) (App.new "https://a") "https://b").1.current_url
      = normalize "https://b"
  ∧ (App.navigate (fun _ => none) (App.new "https://a") "https://b").1.future = []
  ∧ (App.navigate (fun _ => none) (App.new "https://a") "https://b").1.history
      = (if (App.new "https://a").current_url = ""
         then (App.new "https://a").history
         else (App.new "https://a").current_url :: (App.new "https://a").history)) :=
  ⟨rfl, navigate_failure_frame (fun _ => none) (App.new "https://a") "https://b" rfl⟩

/-- C4 counterexample: after navigate(A); navigate(B); back(), the future
stack holds B (it is not empty) and a subsequent forward() moves back to B
(it is not a no-op). -/
theorem back_future_counterexample :
    (App.go_back fetchOkEmpty
        (App.navigate fetchOkEmpty
          (App.navigate fetchOkEmpty (App.new "https://s") "https://a").1
          "https://b").1).1.future = ["https://b"]
  ∧ (App.go_back fetchOkEmpty
        (App.navigate fetchOkEmpty
          (App.navigate fetchOkEmpty (App.new "https://s") "https://a").1
          "https://b").1).1.future ≠ []
  ∧ (App.go_forward fetchOkEmpty
        (App.go_back fetchOkEmpty
          (App.navigate fetchOkEmpty
            (App.navigate fetchOkEmpty (App.new "https://s") "https://a").1
            "https://b").1).1).1.current_url = "https://b" := by
  decide

/-- C4 (amended): navigate(A); navigate(B); back() (all fetches succeeding)
leaves the current address at the normalized A, but the future stack holds
exactly the normalized B, so a subsequent forward() succeeds and moves the
current address back to B. -/
theorem back_after_navigations (fetch : String → Option Page) (s : App)
    (A B : String) (pA pB : Page)
    (hA : fetch (normalize A) = some pA) (hB : fetch (normalize B) = some pB) :
    (App.go_back fetch
        (App.navigate fetch (App.navigate fetch s A).1 B).1).2 = true
  ∧ (App.go_back fetch
        (App.navigate fetch (App.navigate fetch s A).1 B).1).1.current_url
      = normalize A
  ∧ (App.go_back fetch
        (App.navigate fetch (App.navigate fetch s A).1 B).1).1.future
      = [normalize B]
  ∧ (App.go_forward fetch
        (App.go_back fetch
          (App.navigate fetch (App.navigate fetch s A).1 B).1).1).2 = true
  ∧ (App.go_forward fetch
        (App.go_back fetch
          (App.navigate fetch (App.navigate fetch s A).1 B).1).1).1.current_url
      = normalize B := by
  rw [navigate_success_eq fetch s A pA hA]
  dsimp only
  rw [navigate_success_eq fetch _ B pB hB]
  dsimp only
  simp only [if_neg (normalize_ne_nil A)]
  rw [go_back_success_eq fetch _ (normalize A) _ pA rfl hA]
  dsimp only
  rw [go_forward_success_eq fetch _ (normalize B) _ pB rfl hB]
  exact ⟨rfl, rfl, rfl, rfl, rfl⟩

theorem back_after_navigations_witness :
    (fetchOkEmpty (normalize "https://a") = some pageEmpty
     ∧ fetchOkEmpty (normalize "https://b") = some pageEmpty)
  ∧ ((App.go_back fetchOkEmpty
        (App.navigate fetchOkEmpty
          (App.navigate fetchOkEmpty (App.new "https://s") "https://a").1
          "https://b").1).2 = true
  ∧ (App.go_back fetchOkEmpty
        (App.navigate fetchOkEmpty
          (App.navigate fetchOkEmpty (App.new "https://s") "https://a").1
          "https://b").1).1.current_url = normalize "https://a"
  ∧ (App.go_back fetchOkEmpty
        (App.navigate fetchOkEmpty
          (App.navigate fetchOkEmpty (App.new "https://s") "https://a").1
          "https://b").1).1.future = [normalize "https://b"]
  ∧ (App.go_forward fetchOkEmpty
        (App.go_back fetchOkEmpty
          (App.navigate fetchOkEmpty
            (App.navigate fetchOkEmpty (App.new "https://s") "https://a").1
            "https://b").1).1).2 = true
  ∧ (App.go_forward fetchOkEmpty
        (App.go_back fetchOkEmpty
          (App.navigate fetchOkEmpty
            (App.navigate fetchOkEmpty (App.new "https://s") "https://a").1
            "https://b").1).1).1.current_url = normalize "https://b") :=
  ⟨⟨rfl, rfl⟩,
   back_after_navigations fetchOkEmpty (App.new "https://s")
     "https://a" "https://b" pageEmpty pageEmpty rfl rfl⟩

/-- C5: back() then forward(), with the same deterministic fetch oracle
succeeding on both addresses and the pre-back content being the converted
fetch result of the current address (which is how every reachable state
with a refetchable current address was produced), restores the current
address, the history stack, the future stack and the content lines to their
values before back(). -/
theorem back_forward_roundtrip (fetch : String → Option Page) (s : App)
    (prev : String) (rest : List String) (pgP pgC : Page)
    (hh : s.history = prev :: rest)
    (hp : fetch prev = some pgP)
    (hc : fetch s.current_url = some pgC)
    (hcontent : s.content_lines = pgC.lines) :
    (App.go_back fetch s).2 = true
  ∧ (App.go_forward fetch (App.go_back fetch s).1).2 = true
  ∧ (App.go_forward fetch (App.go_back fetch s).1).1.current_url
      = s.current_url
  ∧ (App.go_forward fetch (App.go_back fetch s).1).1.history = s.history
  ∧ (App.go_forward fetch (App.go_back fetch s).1).1.future = s.future
  ∧ (App.go_forward fetch (App.go_back fetch s).1).1.content_lines
      = s.content_lines := by
  rw [go_back_success_eq fetch s prev rest pgP hh hp]
  dsimp only
  rw [go_forward_success_eq fetch _ s.current_url s.future pgC rfl hc]
  exact ⟨rfl, rfl, rfl, hh.symm, rfl, hcontent.symm⟩

theorem back_forward_roundtrip_witness :
    (({ App.new "https://c" with history := ["https://p"] } : App).history
        = "https://p" :: []
     ∧ fetchOkEmpty "https://p" = some pageEmpty
     ∧ fetchOkEmpty ({ App.new "https://c" with
          history := ["https://p"] } : App).current_url = some pageEmpty
     ∧ ({ App.new "https://c" with history := ["https://p"] } : App).content_lines
        = pageEmpty.lines)
  ∧ ((App.go_back fetchOkEmpty
        { App.new "https://c" with history := ["https://p"] }).2 = true
  ∧ (App.go_forward fetchOkEmpty
        (App.go_back fetchOkEmpty
          { App.new "https://c" with history := ["https://p"] }).1).2 = true
  ∧ (App.go_forward fetchOkEmpty
        (App.go_back fetchOkEmpty
          { App.new "https://c" with history := ["https://p"] }).1).1.current_url
      = ({ App.new "https://c" with history := ["https://p"] } : App).current_url
  ∧ (App.go_forward fetchOkEmpty
        (App.go_back fetchOkEmpty
          { App.new "https://c" with history := ["https://p"] }).1).1.history
      = ({ App.new "https://c" with history := ["https://p"] } : App).history
  ∧ (App.go_forward fetchOkEmpty
        (App.go_back fetchOkEmpty
          { App.new "https://c" with history := ["https://p"] }).1).1.future
      = ({ App.new "https://c" with history := ["https://p"] } : App).future
  ∧ (App.go_forward fetchOkEmpty
        (App.go_back fetchOkEmpty
          { App.new "https://c" with history := ["https://p"] }).1).1.content_lines
      = ({ App.new "https://c" with history := ["https://p"] } : App).content_lines) :=
  ⟨⟨rfl, rfl, rfl, rfl⟩,
   back_forward_roundtrip fetchOkEmpty
     { App.new "https://c" with history := ["https://p"] }
     "https://p" [] pageEmpty pageEmpty rfl rfl rfl rfl⟩

/-! ### Selection cycling, image preview -/

/-- A one-line, one-link sample document for concrete instantiation. -/
def sampleDoc : List (List TaggedString) :=
  [[{ s := "hello", tag := [Annot.link "https://x"] }]]

theorem highlight_selected_witness :
    0 < (convert (fun t => t) sampleDoc).2.length
  ∧ (let lines := (convert (fun t => t) sampleDoc).1
     let ss := flattenSpans lines
     let rs := flattenSpans (render_content 0 lines)
     rs.length = ss.length ∧
     ∃ j sp, ss[j]? = some sp ∧ isLinkSpan sp = true
       ∧ countLinkSpans (ss.take j) = 0
       ∧ rs[j]? = some (highlightSpan sp)
       ∧ highlightSpan sp ≠ sp
       ∧ ∀ k, k ≠ j → rs[k]? = ss[k]?) :=
  ⟨by decide, highlight_selected (fun t => t) sampleDoc 0 (by decide)⟩

/-- C6 counterexample: with three links, four next operations starting at
selection 0 land on 1, not 0; it is three operations that return the
selection to 0. -/
theorem four_next_counterexample :
    next_link 3 (next_link 3 (next_link 3 (next_link 3 0))) = 1
  ∧ next_link 3 (next_link 3 (next_link 3 (next_link 3 0))) ≠ 0
  ∧ next_link 3 (next_link 3 (next_link 3 0)) = 0 := by
  decide

/-- C6 (amended): selection cycling wraps modulo links.len(): the next-link
key maps i to (i+1) mod len and the previous-link key maps i to (i-1) mod
len; with three links, three next operations from 0 return to 0 (four land
on 1) and one previous from 0 yields 2; with an empty link list both keys
leave the selection unchanged at 0. -/
theorem selection_cycling (len i : Nat) (hlen : 0 < len) (hi : i < len) :
    next_link len i = (i + 1) % len
  ∧ ((prev_link len i : Int) = ((i : Int) - 1) % (len : Int))
  ∧ next_link 3 (next_link 3 (next_link 3 0)) = 0
  ∧ prev_link 3 0 = 2
  ∧ next_link 0 0 = 0 ∧ prev_link 0 0 = 0 := by
  have hne : len ≠ 0 := by omega
  refine ⟨by simp [next_link, hne], ?_, by decide, by decide, by decide,
    by decide⟩
  unfold prev_link
  rw [if_pos hne]
  by_cases hi0 : i = 0
  · subst hi0
    rw [if_pos rfl]
    simp only [Nat.cast_zero]
    have e1 : ((0 : Int) - 1) % (len : Int)
        = ((len : Int) - 1) % (len : Int) := by
      have h2 : (len : Int) - 1 = (0 - 1) + (len : Int) * 1 := by ring
      rw [h2, Int.add_mul_emod_self_left]
    have e2 : ((len : Int) - 1) % (len : Int) = (len : Int) - 1 :=
      Int.emod_eq_of_lt (by omega) (by omega)
    rw [e1, e2]
    omega
  · rw [if_neg hi0]
    have e3 : ((i : Int) - 1) % (len : Int) = (i : Int) - 1 :=
      Int.emod_eq_of_lt (by omega) (by omega)
    rw [e3]
    omega

theorem selection_cycling_witness :
    (0 < 3 ∧ 1 < 3)
  ∧ (next_link 3 1 = (1 + 1) % 3
  ∧ ((prev_link 3 1 : Int) = ((1 : Int) - 1) % (3 : Int))
  ∧ next_link 3 (next_link 3 (next_link 3 0)) = 0
  ∧ prev_link 3 0 = 2
  ∧ next_link 0 0 = 0 ∧ prev_link 0 0 = 0) :=
  ⟨⟨by decide, by decide⟩, selection_cycling 3 1 (by decide) (by decide)⟩

/-- C7 counterexample: the height computation truncates instead of
rounding.  For a 16×3 image at target width 80 the code computes
(80 * (3/16) * 0.5) as u32 = 7 (all intermediate values are exactly
representable), while round(80 * (3/16) * 0.5) = round(7.5) = 8, so the
produced grid has 7 rows, not 8. -/
theorem height_truncation_counterexample :
    newHeight 16 3 = 7 ∧ roundHeight 16 3 = 8
  ∧ newHeight 16 3 ≠ roundHeight 16 3
  ∧ (aaGrid (fun _ _ => (0 : Fin 256)) 80 (newHeight 16 3)).length = 7 := by
  decide

/-- C7 (amended): for every decodable image of width w > 0 and height h,
the conversion at target width 80 produces exactly newHeight w h rows
(truncation of 80 * (h/w) * 0.5, not rounding), each a string of exactly
80 characters; a 160×100 image still yields an 80-wide, 25-row grid since
there 80 * (100/160) * 0.5 = 25 exactly. -/
theorem preview_grid_shape (g : Nat → Nat → Fin 256) (w h : Nat)
    (hw : 0 < w) :
    (aaGrid g 80 (newHeight w h)).length = newHeight w h
  ∧ (∀ row ∈ aaGrid g 80 (newHeight w h), row.length = 80)
  ∧ newHeight 160 100 = 25 := by
  refine ⟨by simp [aaGrid], ?_, rfl⟩
  intro row hr
  rcases List.mem_map.1 hr with ⟨y, hy, rfl⟩
  simp [aaRow, String.length]

theorem preview_grid_shape_witness :
    0 < 160
  ∧ ((aaGrid (fun _ _ => (0 : Fin 256)) 80 (newHeight 160 100)).length
        = newHeight 160 100
  ∧ (∀ row ∈ aaGrid (fun _ _ => (0 : Fin 256)) 80 (newHeight 160 100),
        row.length = 80)
  ∧ newHeight 160 100 = 25) :=
  ⟨by decide,
   preview_grid_shape (fun _ _ => (0 : Fin 256)) 160 100 (by decide)⟩

/-- C8: each pixel's luminance p is quantized to the ramp glyph at index
floor(p * (ramp_length - 1) / 255); a solid pure-white 160×100 image at
target width 80 yields a 80×25 grid of the densest glyph, and a solid
pure-black one a grid of the sparsest glyph (space). -/
theorem quantization_solid :
    (∀ p : Fin 256, aaChar p
        = (charset.get? (p.val * (charset.length - 1) / 255)).getD ' ')
  ∧ aaChar (255 : Fin 256) = '@'
  ∧ aaChar (0 : Fin 256) = ' '
  ∧ aaGrid (fun _ _ => (255 : Fin 256)) 80 (newHeight 160 100)
      = List.replicate 25 (String.mk (List.replicate 80 '@'))
  ∧ aaGrid (fun _ _ => (0 : Fin 256)) 80 (newHeight 160 100)
      = List.replicate 25 (String.mk (List.replicate 80 ' ')) :=
  ⟨fun p => rfl, by decide, by decide, by decide, by decide⟩

/-- C9: the image-preview flow mutates only the image_preview slot and the
status text: history, future, current address, content lines, links,
selection and scroll are unchanged in every case, and when the fetch or the
decode fails the image_preview slot too is unchanged. -/
theorem preview_frame (fb : String → Option (List Nat))
    (dec : List Nat → Option RawImage) (s : App) (url : String) :
    (App.preview_image fb dec s url).1.history = s.history
  ∧ (App.preview_image fb dec s url).1.future = s.future
  ∧ (App.preview_image fb dec s url).1.current_url = s.current_url
  ∧ (App.preview_image fb dec s url).1.content_lines = s.content_lines
  ∧ (App.preview_image fb dec s url).1.links = s.links
  ∧ (App.preview_image fb dec s url).1.selected_link_idx
      = s.selected_link_idx
  ∧ (App.preview_image fb dec s url).1.scroll = s.scroll
  ∧ ((App.preview_image fb dec s url).2 = false →
      (App.preview_image fb dec s url).1.image_preview = s.image_preview) := by
  cases hfb : fb url with
  | none => simp [App.preview_image, hfb]
  | some bytes =>
      cases hdec : dec bytes with
      | none => simp [App.preview_image, hfb, hdec]
      | some img => simp [App.preview_image, hfb, hdec]

theorem preview_frame_witness :
    (App.preview_image (fun _ => some []) (fun _ => none)
        (App.new "https://a") "https://i").1.history
      = (App.new "https://a").history
  ∧ (App.preview_image (fun _ => some []) (fun _ => none)
        (App.new "https://a") "https://i").1.future
      = (App.new "https://a").future
  ∧ (App.preview_image (fun _ => some []) (fun _ => none)
        (App.new "https://a") "https://i").1.current_url
      = (App.new "https://a").current_url
  ∧ (App.preview_image (fun _ => some []) (fun _ => none)
        (App.new "https://a") "https://i").1.content_lines
      = (App.new "https://a").content_lines
  ∧ (App.preview_image (fun _ => some []) (fun _ => none)
        (App.new "https://a") "https://i").1.links
      = (App.new "https://a").links
  ∧ (App.preview_image (fun _ => some []) (fun _ => none)
        (App.new "https://a") "https://i").1.selected_link_idx
      = (App.new "https://a").selected_link_idx
  ∧ (App.preview_image (fun _ => some []) (fun _ => none)
        (App.new "https://a") "https://i").1.scroll
      = (App.new "https://a").scroll
  ∧ ((App.preview_image (fun _ => some []) (fun _ => none)
        (App.new "https://a") "https://i").2 = false →
      (App.preview_image (fun _ => some []) (fun _ => none)
          (App.new "https://a") "https://i").1.image_preview
        = (App.new "https://a").image_preview) :=
  preview_frame (fun _ => some []) (fun _ => none) (App.new "https://a")
    "https://i"

/-- C10: for every 8-bit luminance p the quantization index
(p * (ramp_length - 1)) / 255 is strictly below the ramp length, so the
glyph lookup of preview_image always succeeds and its unwrap cannot
panic. -/
theorem ramp_index_safe (p : Nat) (h : p ≤ 255) :
    rampIdx p < charset.length
  ∧ (charset.get? (rampIdx p)).isSome = true := by
  have hlt : rampIdx p < 14 := by
    show p * (charset.length - 1) / 255 < 14
    have hc : charset.length - 1 = 13 := rfl
    rw [hc, Nat.div_lt_iff_lt_mul (by norm_num : (0 : Nat) < 255)]
    omega
  constructor
  · show rampIdx p < charset.length
    have hc2 : charset.length = 14 := rfl
    rw [hc2]
    exact hlt
  · exact (by decide :
      ∀ i : Fin 14, ((charset.get? i.val).isSome = true)) ⟨rampIdx p, hlt⟩

theorem ramp_index_safe_witness :
    255 ≤ 255
  ∧ (rampIdx 255 < charset.length
  ∧ (charset.get? (rampIdx 255)).isSome = true) :=
  ⟨by decide, ramp_index_safe 255 (by decide)⟩

end Voyager
